import Mathlib

set_option maxRecDepth 8192

/-!
Verification development for the inventory-sync-service repository: a shallow
embedding of the TypeScript source (webhook controller, marketplace adapters,
repository upsert, queue job ids, polling cycle, lock wrapper, worker job
processing) together with theorems settling the specification claims.

Modelling conventions:
* JavaScript strings are Lean `String`s; `Buffer.from(s)` byte views are
  modelled by `String.data` (all inputs of interest are ASCII).
* JSON numbers are modelled as integers (`Int`); every payload in the
  repository's own tests and spec scenarios uses integer numbers only.
* Fallible operations return `Except`; thrown JS errors are `.error` values.
* Wall-clock readings (`Date.now()`) are explicit parameters.
-/

deriving instance DecidableEq for Except

namespace InvSync

/-! ### Decimal rendering of natural numbers

Embeds the JavaScript number-to-string conversion used in template literals
such as the queue's job ids (`Date.now()` and batch indices are non-negative
integers, rendered in decimal). -/

def decReprGo (fuel : Nat) (n : Nat) : List Char :=
  match fuel with
  | 0 => []
  | fuel + 1 =>
    if n < 10 then [Nat.digitChar n]
    else decReprGo fuel (n / 10) ++ [Nat.digitChar (n % 10)]

def decRepr (n : Nat) : List Char := decReprGo (n + 1) n

/-- Read a decimal digit list back to a number (helper for injectivity). -/
def decVal (l : List Char) : Nat :=
  l.foldl (fun a c => a * 10 + (c.toNat - 48)) 0

/-- Decimal rendering as a `String` (JS `${n}` for a non-negative integer). -/
def natStr (n : Nat) : String := ⟨decRepr n⟩

/-- JS rendering of a (possibly negative) integer, e.g. in `JSON.stringify`. -/
def intRepr (i : Int) : List Char :=
  if i < 0 then '-' :: decRepr i.natAbs else decRepr i.natAbs

/-! ### JSON values

Embeds the dynamic JSON data handled by `express.json()`, `JSON.stringify`
and the zod schemas. JSON numbers are restricted to integers: every payload
appearing in the repository (webhook bodies, Marketplace B items) carries
integer numbers only. Arrays and objects are mutual inductives so that
decidable equality can be derived. -/

mutual
inductive Json where
  | null
  | bool (b : Bool)
  | num (n : Int)
  | str (s : String)
  | arr (xs : JsonList)
  | obj (fields : JsonFields)
deriving DecidableEq

inductive JsonList where
  | nil
  | cons (hd : Json) (tl : JsonList)
deriving DecidableEq

inductive JsonFields where
  | nil
  | cons (key : String) (val : Json) (tl : JsonFields)
deriving DecidableEq
end

/-- Property lookup on a JS object (first binding wins). -/
def JsonFields.find? : JsonFields → String → Option Json
  | .nil, _ => none
  | .cons k v tl, key => if k == key then some v else JsonFields.find? tl key

def lbrace : Char := Char.ofNat 123

def rbrace : Char := Char.ofNat 125

/-- String escaping performed by `JSON.stringify` (restricted to the escapes
relevant for the payloads at hand; other control characters do not occur). -/
def escapeChar (c : Char) : List Char :=
  if c == '"' then ['\\', '"']
  else if c == '\\' then ['\\', '\\']
  else if c == '\n' then ['\\', 'n']
  else if c == '\t' then ['\\', 't']
  else if c == '\r' then ['\\', 'r']
  else [c]

def escapeChars (l : List Char) : List Char := (l.map escapeChar).flatten

/-! `JSON.stringify` (minified rendering, insertion order of object keys). -/

mutual
def Json.stringifyChars : Json → List Char
  | .null => "null".data
  | .bool true => "true".data
  | .bool false => "false".data
  | .num n => intRepr n
  | .str s => '"' :: escapeChars s.data ++ ['"']
  | .arr xs => '[' :: Json.stringifyListChars xs ++ [']']
  | .obj fs => lbrace :: Json.stringifyFieldsChars fs ++ [rbrace]

def Json.stringifyListChars : JsonList → List Char
  | .nil => []
  | .cons x .nil => x.stringifyChars
  | .cons x (.cons y tl) => x.stringifyChars ++ ',' :: Json.stringifyListChars (.cons y tl)

def Json.stringifyFieldsChars : JsonFields → List Char
  | .nil => []
  | .cons k v .nil => '"' :: escapeChars k.data ++ '"' :: ':' :: v.stringifyChars
  | .cons k v (.cons k2 v2 tl) =>
      ('"' :: escapeChars k.data ++ '"' :: ':' :: v.stringifyChars) ++
        ',' :: Json.stringifyFieldsChars (.cons k2 v2 tl)
end

def Json.stringify (j : Json) : String := ⟨j.stringifyChars⟩

/-! JSON parsing (the body parsing done by `express.json()` / `JSON.parse`),
written as a fueled recursive-descent parser. Whitespace between tokens is
accepted and discarded, which is exactly what makes the parse/stringify
round trip non-identical on bodies containing whitespace. -/

def isWsChar (c : Char) : Bool := c == ' ' || c == '\n' || c == '\t' || c == '\r'

def skipWs : List Char → List Char
  | [] => []
  | c :: cs => if isWsChar c then skipWs cs else c :: cs

def unescapeChar (c : Char) : Option Char :=
  match c with
  | 'n' => some '\n'
  | 't' => some '\t'
  | 'r' => some '\r'
  | _ => if c = '"' ∨ c = '\\' ∨ c = '/' then some c else none

def parseStringBody : List Char → Option (List Char × List Char)
  | [] => none
  | c :: cs =>
    if c == '"' then some ([], cs)
    else if c == '\\' then
      match cs with
      | [] => none
      | e :: cs2 =>
        match unescapeChar e, parseStringBody cs2 with
        | some u, some (s, r) => some (u :: s, r)
        | _, _ => none
    else
      match parseStringBody cs with
      | some (s, r) => some (c :: s, r)
      | none => none

def takeDigits : List Char → List Char × List Char
  | [] => ([], [])
  | c :: cs =>
    if c.isDigit then
      let (d, r) := takeDigits cs
      (c :: d, r)
    else ([], c :: cs)

mutual
def parseVal : Nat → List Char → Option (Json × List Char)
  | 0, _ => none
  | fuel + 1, cs =>
    match skipWs cs with
    | [] => none
    | c :: cs2 =>
      if c == 'n' then
        match cs2 with
        | 'u' :: 'l' :: 'l' :: r => some (.null, r)
        | _ => none
      else if c == 't' then
        match cs2 with
        | 'r' :: 'u' :: 'e' :: r => some (.bool true, r)
        | _ => none
      else if c == 'f' then
        match cs2 with
        | 'a' :: 'l' :: 's' :: 'e' :: r => some (.bool false, r)
        | _ => none
      else if c == '"' then
        match parseStringBody cs2 with
        | some (s, r) => some (.str ⟨s⟩, r)
        | none => none
      else if c == '-' then
        match takeDigits cs2 with
        | ([], _) => none
        | (ds, r) => some (.num (-(decVal ds : Int)), r)
      else if c.isDigit then
        match takeDigits (c :: cs2) with
        | (ds, r) => some (.num (decVal ds : Int), r)
      else if c == '[' then
        match skipWs cs2 with
        | [] => none
        | c2 :: r2 =>
          if c2 == ']' then some (.arr .nil, r2)
          else
            match parseElems fuel (c2 :: r2) with
            | some (vs, r) => some (.arr vs, r)
            | none => none
      else if c == lbrace then
        match skipWs cs2 with
        | [] => none
        | c2 :: r2 =>
          if c2 == rbrace then some (.obj .nil, r2)
          else
            match parseMembers fuel (c2 :: r2) with
            | some (fs, r) => some (.obj fs, r)
            | none => none
      else none

def parseElems : Nat → List Char → Option (JsonList × List Char)
  | 0, _ => none
  | fuel + 1, cs =>
    match parseVal fuel cs with
    | none => none
    | some (v, r) =>
      match skipWs r with
      | ',' :: r2 =>
        match parseElems fuel r2 with
        | some (vs, r3) => some (.cons v vs, r3)
        | none => none
      | ']' :: r2 => some (.cons v .nil, r2)
      | _ => none

def parseMembers : Nat → List Char → Option (JsonFields × List Char)
  | 0, _ => none
  | fuel + 1, cs =>
    match skipWs cs with
    | '"' :: r =>
      match parseStringBody r with
      | some (k, r1) =>
        match skipWs r1 with
        | ':' :: r2 =>
          match parseVal fuel r2 with
          | some (v, r3) =>
            match skipWs r3 with
            | [] => none
            | c :: r4 =>
              if c == ',' then
                match parseMembers fuel r4 with
                | some (fs, r5) => some (.cons ⟨k⟩ v fs, r5)
                | none => none
              else if c == rbrace then some (.cons ⟨k⟩ v .nil, r4)
              else none
          | none => none
        | _ => none
      | none => none
    | _ => none
end

/-- JSON parsing of a whole document (`JSON.parse`; what `express.json()`
applies to the raw request body before the controller ever runs). -/
def Json.parse (s : String) : Option Json :=
  match parseVal (s.data.length + 1) s.data with
  | some (v, rest) => if (skipWs rest).isEmpty then some v else none
  | none => none

/-! ### Canonical record and zod schemas (src/types/inventory.types.ts) -/

/-- The `source` enum of `InternalInventorySchema`. -/
inductive Source where
  | marketplace_a
  | marketplace_b
deriving DecidableEq

/-- Rendering of the source enum value (the literal strings used in the code). -/
def Source.str : Source → String
  | .marketplace_a => "marketplace_a"
  | .marketplace_b => "marketplace_b"

/-- The internal unified inventory format (`InternalInventory`). -/
structure InternalInventory where
  productId : String
  quantity : Int
  source : Source
  warehouseId : Option String
  updatedAt : String
  metadata : Option JsonFields
deriving DecidableEq

/-- Field access plus type check for a required zod field. -/
def reqField (fs : JsonFields) (k : String) (conv : Json → Option α) : Option α :=
  (fs.find? k).bind conv

/-- Field access for an optional zod field: an absent key is accepted as
`none`, a present key must satisfy the type check. -/
def optField (fs : JsonFields) (k : String) (conv : Json → Option α) : Option (Option α) :=
  match fs.find? k with
  | none => some none
  | some v => (conv v).map some

def asString : Json → Option String
  | .str s => some s
  | _ => none

/-- Check for `z.number().int()`: with JSON numbers modelled as integers the
integrality test always succeeds; note there is no `.min(0)` on the payload
schemas, so negative values pass. -/
def asIntNumber : Json → Option Int
  | .num n => some n
  | _ => none

/-- Check for `z.record(z.string(), z.any())`: any object. -/
def asRecord : Json → Option JsonFields
  | .obj fs => some fs
  | _ => none

/-- Parsed form of a Marketplace A webhook payload (`MarketplaceAPayload`). -/
structure MarketplaceAPayload where
  product_code : String
  available_stock : Int
  timestamp : String
  warehouse : Option String
  metadata : Option JsonFields
deriving DecidableEq

/-- Embedding of `MarketplaceAPayloadSchema.parse`: object with required
`product_code : z.string()`, `available_stock : z.number().int()`,
`timestamp : z.string()`, optional `warehouse : z.string()`, optional
`metadata : z.record(z.string(), z.any())`. -/
def MarketplaceAPayloadSchema.parse (j : Json) : Option MarketplaceAPayload := do
  let fs ← asRecord j
  let product_code ← reqField fs "product_code" asString
  let available_stock ← reqField fs "available_stock" asIntNumber
  let timestamp ← reqField fs "timestamp" asString
  let warehouse ← optField fs "warehouse" asString
  let metadata ← optField fs "metadata" asRecord
  pure ⟨product_code, available_stock, timestamp, warehouse, metadata⟩

/-- Parsed form of a Marketplace B item (`MarketplaceBPayload`). -/
structure MarketplaceBPayload where
  sku : String
  qty : Int
  location_id : Option String
  last_modified : Int
  additional_info : Option JsonFields
deriving DecidableEq

/-- Embedding of `MarketplaceBPayloadSchema.parse`: object with required
`sku : z.string()`, `qty : z.number().int()`, `last_modified : z.number()`,
optional `location_id : z.string()`, optional
`additional_info : z.record(z.string(), z.any())`. -/
def MarketplaceBPayloadSchema.parse (j : Json) : Option MarketplaceBPayload := do
  let fs ← asRecord j
  let sku ← reqField fs "sku" asString
  let qty ← reqField fs "qty" asIntNumber
  let location_id ← optField fs "location_id" asString
  let last_modified ← reqField fs "last_modified" asIntNumber
  let additional_info ← optField fs "additional_info" asRecord
  pure ⟨sku, qty, location_id, last_modified, additional_info⟩

/-! ### Date rendering (`new Date(ms).toISOString()`)

The civil-from-days conversion of the proleptic Gregorian calendar, followed
by the fixed `YYYY-MM-DDTHH:mm:ss.sssZ` rendering (years outside 0..9999 use
the expanded six-digit form, as in ECMAScript). -/

/-- Convert a day count relative to 1970-01-01 to (year, month, day). -/
def civilFromDays (z : Int) : Int × Nat × Nat :=
  let zs : Int := z + 719468
  let era : Int := zs.fdiv 146097
  let doe : Nat := (zs - era * 146097).toNat
  let yoe : Nat := (doe - doe / 1460 + doe / 36524 - doe / 146096) / 365
  let y : Int := era * 400 + yoe
  let doy : Nat := doe - (365 * yoe + yoe / 4 - yoe / 100)
  let mp : Nat := (5 * doy + 2) / 153
  let d : Nat := doy - (153 * mp + 2) / 5 + 1
  let m : Nat := if mp < 10 then mp + 3 else mp - 9
  (if m ≤ 2 then y + 1 else y, m, d)

/-- Left-pad a decimal rendering with zeros to a given width. -/
def padDec (w : Nat) (n : Nat) : List Char :=
  List.replicate (w - (decRepr n).length) '0' ++ decRepr n

/-- The maximal absolute epoch-milliseconds value a JS `Date` accepts. -/
def maxDateMillis : Nat := 8640000000000000

/-- Embedding of `Date.prototype.toISOString` on an integer epoch-millisecond
value inside the valid `Date` range. -/
def epochMillisToISO (ms : Int) : String :=
  let days : Int := ms.fdiv 86400000
  let msOfDay : Nat := (ms - days * 86400000).toNat
  let hh := msOfDay / 3600000
  let mm := msOfDay / 60000 % 60
  let ss := msOfDay / 1000 % 60
  let mss := msOfDay % 1000
  let ymd := civilFromDays days
  let y := ymd.1
  let m := ymd.2.1
  let d := ymd.2.2
  let yearPart : List Char :=
    if 0 ≤ y ∧ y ≤ 9999 then padDec 4 y.toNat
    else if y < 0 then '-' :: padDec 6 (-y).toNat
    else '+' :: padDec 6 y.toNat
  ⟨yearPart ++ '-' :: padDec 2 m ++ '-' :: padDec 2 d ++
    'T' :: padDec 2 hh ++ ':' :: padDec 2 mm ++ ':' :: padDec 2 ss ++
    '.' :: padDec 3 mss ++ ['Z']⟩

/-! ### Adapters (marketplace-a.adapter.ts, marketplace-b.adapter.ts) -/

namespace MarketplaceAAdapter

/-- Embedding of `MarketplaceAAdapter.transform`: zod-validate, then map
`product_code → productId`, `available_stock → quantity`,
`warehouse → warehouseId`, `timestamp → updatedAt` (passed through),
`metadata → metadata`; a validation failure is rethrown as an error. -/
def transform (payload : Json) : Except String InternalInventory :=
  match MarketplaceAPayloadSchema.parse payload with
  | none => .error "Invalid Marketplace A payload"
  | some v =>
    .ok { productId := v.product_code
          quantity := v.available_stock
          source := .marketplace_a
          warehouseId := v.warehouse
          updatedAt := v.timestamp
          metadata := v.metadata }

end MarketplaceAAdapter

namespace MarketplaceBAdapter

/-- Embedding of `MarketplaceBAdapter.transform`: zod-validate, then map
`sku → productId`, `qty → quantity`, `location_id → warehouseId`,
`last_modified → updatedAt` via `new Date(last_modified * 1000).toISOString()`
(the `Date` range error for out-of-range timestamps is caught by the
adapter's catch block and surfaces as the same validation error),
`additional_info → metadata`. -/
def transform (payload : Json) : Except String InternalInventory :=
  match MarketplaceBPayloadSchema.parse payload with
  | none => .error "Invalid Marketplace B payload"
  | some v =>
    let ms : Int := v.last_modified * 1000
    if ms.natAbs ≤ maxDateMillis then
      .ok { productId := v.sku
            quantity := v.qty
            source := .marketplace_b
            warehouseId := v.location_id
            updatedAt := epochMillisToISO ms
            metadata := v.additional_info }
    else .error "Invalid Marketplace B payload"

/-- Embedding of `MarketplaceBAdapter.transformBatch`: transform each item,
drop the failures. -/
def transformBatch (payloads : List Json) : List InternalInventory :=
  payloads.filterMap (fun p => (transform p).toOption)

end MarketplaceBAdapter

/-! ### Queue job ids (queue.service.ts) -/

namespace QueueService

/-- Job id generated by `addInventoryUpdate`:
the template literal `{source}-{productId}-{Date.now()}`. -/
def addInventoryUpdateJobId (inv : InternalInventory) (nowMs : Nat) : String :=
  inv.source.str ++ "-" ++ inv.productId ++ "-" ++ natStr nowMs

/-- Job id generated for one entry of `addBatch`:
the template literal `{source}-{productId}-{Date.now()}-{index}`. -/
def batchEntryJobId (inv : InternalInventory) (nowMs idx : Nat) : String :=
  inv.source.str ++ "-" ++ inv.productId ++ "-" ++ natStr nowMs ++ "-" ++ natStr idx

/-- The `updates.map((data, index) => ...)` traversal of `addBatch`. -/
def mapWithIndex (f : Nat → α → β) : Nat → List α → List β
  | _, [] => []
  | i, a :: as => f i a :: mapWithIndex f (i + 1) as

/-- The job ids produced by one `addBatch` call (all entries observe the same
`Date.now()` reading in the single-millisecond scenario of the claim). -/
def batchJobIds (updates : List InternalInventory) (nowMs : Nat) : List String :=
  mapWithIndex (fun i d => batchEntryJobId d nowMs i) 0 updates

end QueueService

/-! ### Webhook controller (webhook.controller.ts, marketplace-a.adapter.ts)

The controller runs behind `express.json()`, so it only ever sees the parsed
body object; its local `rawBody` is `JSON.stringify(req.body)`, a
re-serialization. The HMAC function itself is a Node library call
(`crypto.createHmac('sha256', secret)`), taken as a parameter `hmacHex`;
every theorem states only facts that hold for the library function (its
output is 64 lowercase-hex characters). -/

/-- Embedding of `crypto.timingSafeEqual(Buffer.from(a), Buffer.from(b))`:
a `RangeError` is thrown when the byte lengths differ, otherwise the
comparison result is returned. -/
def timingSafeEqual (a b : String) : Except Unit Bool :=
  if a.data.length = b.data.length then .ok (a == b) else .error ()

/-- Embedding of `MarketplaceAAdapter.validateSignature`: compare the given
signature against `hmacHex(payload)`; the `RangeError` from
`crypto.timingSafeEqual` propagates to the caller. -/
def validateSignature (hmacHex : String → String) (payload signature : String) :
    Except Unit Bool :=
  timingSafeEqual signature (hmacHex payload)

/-- Observable outcome of one webhook request: the HTTP status, and the job
enqueued by `inventoryService.processUpdate` if any (job id and payload). -/
structure HandleResult where
  status : Nat
  enqueued : Option (String × InternalInventory)
deriving DecidableEq

/-- Embedding of `WebhookController.handleMarketplaceA`. The signature header
is `none` when absent; JS `!signature` is also true for the empty string.
Any error thrown inside the `try` block (the `RangeError` from a
wrong-length signature, the transform error for an invalid payload) reaches
the catch block, which replies 500. -/
def WebhookController.handleMarketplaceA (hmacHex : String → String) (body : Json)
    (signature : Option String) (nowMs : Nat) : HandleResult :=
  let rawBody := body.stringify
  match signature with
  | none => ⟨401, none⟩
  | some sig =>
    if sig = "" then ⟨401, none⟩
    else
      match validateSignature hmacHex rawBody sig with
      | .error _ => ⟨500, none⟩
      | .ok false => ⟨401, none⟩
      | .ok true =>
        match MarketplaceAAdapter.transform body with
        | .error _ => ⟨500, none⟩
        | .ok inv => ⟨202, some (QueueService.addInventoryUpdateJobId inv nowMs, inv)⟩

/-- One request to `POST /webhooks/marketplace-a`: `express.json()` parses the
raw body (rejecting malformed JSON with status 400) and hands the parsed
object to the controller. -/
def postWebhookMarketplaceA (hmacHex : String → String) (rawBody : String)
    (signature : Option String) (nowMs : Nat) : HandleResult :=
  match Json.parse rawBody with
  | none => ⟨400, none⟩
  | some body => WebhookController.handleMarketplaceA hmacHex body signature nowMs

/-! ### Repository (inventory.repository.ts, database.config.ts)

The database is a list of inventory rows plus an append-only audit list; one
`upsert` is one transaction, so it is a single state transition. The
`CHECK (quantity >= 0)` constraint of the `inventory` table makes the
transaction fail (constraint violation, rolled back) for a negative
quantity. -/

structure InventoryRow where
  product_id : String
  quantity : Int
  source : Source
  warehouse_id : Option String
  updated_at : String
  created_at : Nat
  metadata : Option JsonFields
deriving DecidableEq

structure AuditRow where
  product_id : String
  old_quantity : Option Int
  new_quantity : Int
  source : Source
  changed_at : Nat
  metadata : JsonFields
deriving DecidableEq

structure DbState where
  inventory : List InventoryRow
  audit : List AuditRow
deriving DecidableEq

inductive DbError where
  | permanentStorage
deriving DecidableEq

/-- The `WHERE product_id = $1 AND SOURCE = $2` row condition. -/
def rowMatches (pid : String) (src : Source) (r : InventoryRow) : Bool :=
  r.product_id == pid && r.source == src

/-- The audit metadata `{ ...inventory.metadata, warehouse_id }`: the spread
of the record metadata with the `warehouse_id` property set on top (an
`undefined` warehouse id leaves no property after JSONB serialization). -/
def mergeAuditMeta (meta : Option JsonFields) (wid : Option String) : JsonFields :=
  let rec dropWid : JsonFields → JsonFields
    | .nil => .nil
    | .cons k v tl => if k == "warehouse_id" then dropWid tl else .cons k v (dropWid tl)
  let rec appendWid : JsonFields → JsonFields
    | .nil =>
      match wid with
      | some w => .cons "warehouse_id" (.str w) .nil
      | none => .nil
    | .cons k v tl => .cons k v (appendWid tl)
  appendWid (dropWid (meta.getD .nil))

/-- The `ON CONFLICT ... DO UPDATE SET` assignment applied to an existing
row (`quantity`, `warehouse_id`, `updated_at`, `metadata`; `created_at` and
the key columns keep their values). -/
def updateRow (inv : InternalInventory) (r : InventoryRow) : InventoryRow :=
  { r with
    quantity := inv.quantity
    warehouse_id := inv.warehouseId
    updated_at := inv.updatedAt
    metadata := inv.metadata }

/-- A freshly inserted row (`created_at` defaults to the transaction time). -/
def insertRow (inv : InternalInventory) (now : Nat) : InventoryRow :=
  { product_id := inv.productId
    quantity := inv.quantity
    source := inv.source
    warehouse_id := inv.warehouseId
    updated_at := inv.updatedAt
    created_at := now
    metadata := inv.metadata }

namespace InventoryRepository

/-- Embedding of `InventoryRepository.upsert`, one transaction:
read the old row (`SELECT ... FOR UPDATE`), compute
`oldQuantity = oldRecord.rows[0]?.quantity || null` — note that the JS `||`
turns a stored quantity of `0` into `null` — insert-or-update the inventory
row, append the audit row, commit. A constraint violation
(`CHECK (quantity >= 0)`) rolls the transaction back and rethrows. -/
def upsert (db : DbState) (inv : InternalInventory) (now : Nat) :
    Except DbError (DbState × InventoryRow) :=
  let old := db.inventory.find? (rowMatches inv.productId inv.source)
  let oldQuantity : Option Int :=
    match old with
    | some r => if r.quantity == 0 then none else some r.quantity
    | none => none
  if inv.quantity < 0 then .error .permanentStorage
  else
    let inventory2 :=
      match old with
      | some _ => db.inventory.map (fun r =>
          if rowMatches inv.productId inv.source r then updateRow inv r else r)
      | none => db.inventory ++ [insertRow inv now]
    let returned :=
      match old with
      | some r => updateRow inv r
      | none => insertRow inv now
    let auditEntry : AuditRow :=
      { product_id := inv.productId
        old_quantity := oldQuantity
        new_quantity := inv.quantity
        source := inv.source
        changed_at := now
        metadata := mergeAuditMeta inv.metadata inv.warehouseId }
    .ok (⟨inventory2, db.audit ++ [auditEntry]⟩, returned)

end InventoryRepository

/-! ### Worker (src/workers/ job processor) and queue retry policy -/

/-- The failure kinds named by the specification for a processing attempt. -/
inductive UpdateError where
  | lockUnavailable
  | transientStorage
  | permanentStorage
  | badPayload
deriving DecidableEq

/-- The return value of a successful job run. -/
structure JobSuccess where
  success : Bool
  productId : String
  quantity : Int
deriving DecidableEq

/-- What `processJob` does with one run: return the success value, or rethrow
the error to the queue. -/
inductive JobOutcome where
  | completed (r : JobSuccess)
  | rethrown (e : UpdateError)
deriving DecidableEq

namespace InventoryWorker

/-- Embedding of `InventoryWorker.processJob`. The outcome of
`inventoryService.executeUpdate` (lock acquisition plus repository upsert)
is the `exec` argument. On success the worker returns
`{success, productId, quantity}`; the catch block rethrows every error
unchanged ("Will trigger automatic retry") — no error kind is marked as a
non-retriable failure. -/
def processJob (inv : InternalInventory) (exec : Except UpdateError Unit) : JobOutcome :=
  match exec with
  | .ok _ => .completed ⟨true, inv.productId, inv.quantity⟩
  | .error e => .rethrown e

end InventoryWorker

/-- What the queue does with a finished run. -/
inductive JobDisposition where
  | markedCompleted
  | retryScheduled
  | markedFailed
deriving DecidableEq

/-- `defaultJobOptions.attempts` of the queue (retry up to 5 times). -/
def defaultJobAttempts : Nat := 5

/-- BullMQ's handling of one finished run under the queue's
`defaultJobOptions`: a return value completes the job; a thrown error
schedules a backoff retry while attempts remain and marks the job failed
once the 5 attempts are exhausted. `attemptsMade` counts the runs already
made before this one. -/
def queueDisposition (attemptsMade : Nat) (outcome : JobOutcome) : JobDisposition :=
  match outcome with
  | .completed _ => .markedCompleted
  | .rethrown _ =>
    if attemptsMade + 1 < defaultJobAttempts then .retryScheduled else .markedFailed

/-! ### Polling service (polling.service.ts) -/

/-- The mutable fields of `PollingService` relevant to one cycle. -/
structure PollState where
  isRunning : Bool
  consecutiveFailures : Nat
deriving DecidableEq

/-- The external world of one polling cycle: the Redis cursor value, the
`Date.now()` readings at the points where the code takes them, and the
outcomes of the two awaited effects (the Marketplace B HTTP call and the
queue batch add). -/
structure PollEnv where
  cursorInRedis : Option Nat
  cycleStartSec : Nat
  fetchResult : Except Unit (List Json)
  enqueueResult : Except Unit Unit
  cursorWriteSec : Nat

/-- The externally visible writes of one polling cycle. -/
structure PollEffects where
  requestedSince : Option Nat
  enqueued : List InternalInventory
  cursorWritten : Option Nat
deriving DecidableEq

namespace PollingService

/-- Embedding of `PollingService.poll` (one cycle). In order: the
single-flight guard; the circuit-breaker check (3 failures open the circuit
and skip the cycle; a 15-minute timer, outside this step, resets the
counter); read the cursor, defaulting to `now - 3600`; fetch; an empty item
list returns early after resetting the failure counter — without writing
the cursor; transform and enqueue the batch; write the cursor with the
Unix-seconds clock at the moment of the write; reset the failure counter.
Any thrown error increments the failure counter. -/
def poll (st : PollState) (env : PollEnv) : PollState × PollEffects :=
  if st.isRunning then (st, ⟨none, [], none⟩)
  else if st.consecutiveFailures ≥ 3 then (st, ⟨none, [], none⟩)
  else
    let since :=
      match env.cursorInRedis with
      | some t => t
      | none => env.cycleStartSec - 3600
    match env.fetchResult with
    | .error _ => ({ st with consecutiveFailures := st.consecutiveFailures + 1 },
        ⟨some since, [], none⟩)
    | .ok items =>
      if items.length = 0 then
        ({ st with consecutiveFailures := 0 }, ⟨some since, [], none⟩)
      else
        let transformed := MarketplaceBAdapter.transformBatch items
        match env.enqueueResult with
        | .error _ => ({ st with consecutiveFailures := st.consecutiveFailures + 1 },
            ⟨some since, [], none⟩)
        | .ok _ =>
          ({ st with consecutiveFailures := 0 },
            ⟨some since, transformed, some env.cursorWriteSec⟩)

end PollingService

/-! ### Lock service (lock.service.ts) -/

/-- Outcome of `withLock`: what the caller observes, plus whether the release
path ran. Acquisition failure is `Sum.inl`, the callback's own error is
`Sum.inr`. -/
structure WithLockResult (ε α : Type) where
  outcome : Except (Unit ⊕ ε) α
  releaseInvoked : Bool

namespace LockService

/-- Embedding of `LockService.releaseLock`: `lock.release()` is awaited
inside a try/catch whose catch only logs, so release never throws. -/
def releaseLock (releaseOutcome : Except Unit Unit) : Except Unit Unit :=
  match releaseOutcome with
  | .ok _ => .ok ()
  | .error _ => .ok ()

/-- Embedding of `LockService.withLock`: acquire (a failure there throws
before the try block is entered), then `try { fn } finally { releaseLock }`.
If the finally block completed abruptly its error would replace the
callback's outcome — unreachable here since `releaseLock` never throws. -/
def withLock (acquire : Except Unit Unit) (fn : Except ε α)
    (releaseOutcome : Except Unit Unit) : WithLockResult ε α :=
  match acquire with
  | .error _ => ⟨.error (Sum.inl ()), false⟩
  | .ok _ =>
    match releaseLock releaseOutcome, fn with
    | .ok _, .ok a => ⟨.ok a, true⟩
    | .ok _, .error e => ⟨.error (Sum.inr e), true⟩
    | .error _, _ => ⟨.error (Sum.inl ()), true⟩

end LockService

/-! ### Stated invariants and concrete inputs used by the claims -/

/-- Invariant I1 / P1 of the specification: every inventory row is covered by
an audit row of the same `(product_id, source)` whose `new_quantity` equals
the row's current quantity. -/
def auditCovered (db : DbState) : Prop :=
  ∀ r ∈ db.inventory, ∃ a ∈ db.audit,
    a.product_id = r.product_id ∧ a.source = r.source ∧ a.new_quantity = r.quantity

/-- Stand-in for `crypto.createHmac('sha256', secret).digest('hex')` in
concrete evaluations: like the real function it returns a 64-character hex
string, and it distinguishes the two concrete inputs compared in the
counterexamples (inputs whose lengths differ modulo 10). Only those two
properties of the real HMAC are used. -/
def hmacHex64 (s : String) : String :=
  ⟨List.replicate 63 '0' ++ [Nat.digitChar (s.data.length % 10)]⟩

/-- The raw webhook body of spec scenario 1, exactly as received on the wire,
with the whitespace a typical client sends (a space after the opening brace,
after each colon and comma, and before the closing brace). -/
def c1raw : String :=
  "\x7b \"product_code\": \"PROD-ABC-123\", \"available_stock\": 50, \"timestamp\": \"2026-01-01T10:00:00Z\", \"warehouse\": \"WH-NY-01\" \x7d"

/-- The JSON value `express.json()` produces from `c1raw`. -/
def c1body : Json :=
  .obj (.cons "product_code" (.str "PROD-ABC-123")
    (.cons "available_stock" (.num 50)
      (.cons "timestamp" (.str "2026-01-01T10:00:00Z")
        (.cons "warehouse" (.str "WH-NY-01") .nil))))

/-- A minified valid webhook body (used for the wrong-length signature case). -/
def c2raw : String :=
  "\x7b\"product_code\":\"PROD-ABC-123\",\"available_stock\":50,\"timestamp\":\"2026-01-01T10:00:00Z\"\x7d"

/-- The JSON value `express.json()` produces from `c2raw`. -/
def c2body : Json :=
  .obj (.cons "product_code" (.str "PROD-ABC-123")
    (.cons "available_stock" (.num 50)
      (.cons "timestamp" (.str "2026-01-01T10:00:00Z") .nil)))

/-- A canonical record whose quantity is zero (the boundary case of replay). -/
def c4record : InternalInventory :=
  { productId := "PROD-ZERO"
    quantity := 0
    source := .marketplace_a
    warehouseId := none
    updatedAt := "2026-01-01T10:00:00Z"
    metadata := none }

/-- A valid Marketplace B item (spec scenario 3). -/
def c5item : Json :=
  .obj (.cons "sku" (.str "SKU1")
    (.cons "qty" (.num 7)
      (.cons "location_id" (.str "L")
        (.cons "last_modified" (.num 1735689600) .nil))))

/-- A Marketplace A payload whose `available_stock` is a negative integer. -/
def c6rawA : Json :=
  .obj (.cons "product_code" (.str "PROD-NEG")
    (.cons "available_stock" (.num (-5))
      (.cons "timestamp" (.str "2026-01-01T10:00:00Z") .nil)))

/-- A Marketplace B payload whose `qty` is a negative integer. -/
def c6rawB : Json :=
  .obj (.cons "sku" (.str "SKU-NEG")
    (.cons "qty" (.num (-7))
      (.cons "last_modified" (.num 1735689600) .nil)))

/-- The Marketplace B item of spec scenario 3, as a JSON value. -/
def c7item : Json :=
  .obj (.cons "sku" (.str "SKU1")
    (.cons "qty" (.num 7)
      (.cons "location_id" (.str "L")
        (.cons "last_modified" (.num 1735689600) .nil))))

/-- The parsed form of `c7item`. -/
def c7payload : MarketplaceBPayload :=
  { sku := "SKU1", qty := 7, location_id := some "L",
    last_modified := 1735689600, additional_info := none }

/-- The first of the two concurrent updates of spec scenario 4. -/
def c9recA : InternalInventory :=
  { productId := "PROD-X"
    quantity := 10
    source := .marketplace_a
    warehouseId := none
    updatedAt := "2026-01-01T10:00:00Z"
    metadata := none }

/-- The second of the two concurrent updates of spec scenario 4. -/
def c9recB : InternalInventory := { c9recA with quantity := 20 }

/-- A record used in the audit-coverage witness. -/
def c8record : InternalInventory :=
  { productId := "PROD-C8"
    quantity := 5
    source := .marketplace_b
    warehouseId := some "WH-1"
    updatedAt := "2025-01-01T00:00:00.000Z"
    metadata := none }

/-! ## Theorems

First the facts about the decimal rendering that the job-id development
needs, then the claim theorems. -/

theorem digitChar_toNat_of_lt {d : Nat} (h : d < 10) :
    (Nat.digitChar d).toNat - 48 = d := by
  interval_cases d <;> rfl

theorem decVal_append_digit (l : List Char) (c : Char) :
    decVal (l ++ [c]) = decVal l * 10 + (c.toNat - 48) := by
  simp [decVal, List.foldl_append]

theorem decVal_decReprGo : ∀ (fuel n : Nat), n < fuel → decVal (decReprGo fuel n) = n := by
  intro fuel
  induction fuel with
  | zero => omega
  | succ fuel ih =>
    intro n hn
    rw [decReprGo]
    by_cases h : n < 10
    · rw [if_pos h]
      simpa [decVal] using digitChar_toNat_of_lt h
    · rw [if_neg h, decVal_append_digit, ih (n / 10) (by omega),
          digitChar_toNat_of_lt (Nat.mod_lt _ (by omega))]
      omega

theorem decVal_decRepr (n : Nat) : decVal (decRepr n) = n :=
  decVal_decReprGo (n + 1) n (by omega)

theorem decRepr_injective : Function.Injective decRepr := by
  intro m n h
  have := congrArg decVal h
  rwa [decVal_decRepr, decVal_decRepr] at this

theorem digitChar_ne_dash {d : Nat} (h : d < 10) : Nat.digitChar d ≠ '-' := by
  interval_cases d <;> decide

theorem dash_not_mem_decReprGo : ∀ (fuel n : Nat), '-' ∉ decReprGo fuel n := by
  intro fuel
  induction fuel with
  | zero => intro n hm; simp [decReprGo] at hm
  | succ fuel ih =>
    intro n hm
    rw [decReprGo] at hm
    by_cases h : n < 10
    · rw [if_pos h, List.mem_singleton] at hm
      exact digitChar_ne_dash h hm.symm
    · rw [if_neg h] at hm
      rcases List.mem_append.mp hm with hm | hm
      · exact ih (n / 10) hm
      · rw [List.mem_singleton] at hm
        exact digitChar_ne_dash (Nat.mod_lt _ (by omega)) hm.symm

theorem dash_not_mem_decRepr (n : Nat) : '-' ∉ decRepr n :=
  dash_not_mem_decReprGo (n + 1) n

/-- Splitting a character list at the first occurrence of a marker character
is unambiguous. -/
theorem split_at_first_marker {c : Char} :
    ∀ (a1 b1 a2 b2 : List Char), c ∉ a1 → c ∉ a2 →
      a1 ++ c :: b1 = a2 ++ c :: b2 → a1 = a2 ∧ b1 = b2 := by
  intro a1
  induction a1 with
  | nil =>
    intro b1 a2 b2 _ h2 heq
    cases a2 with
    | nil => simpa using heq
    | cons x t =>
      rw [List.nil_append, List.cons_append, List.cons.injEq] at heq
      exact absurd (heq.1 ▸ List.mem_cons_self x t) h2
  | cons x t ih =>
    intro b1 a2 b2 h1 h2 heq
    cases a2 with
    | nil =>
      rw [List.nil_append, List.cons_append, List.cons.injEq] at heq
      exact absurd (heq.1 ▸ List.mem_cons_self x t) h1
    | cons y t2 =>
      rw [List.cons_append, List.cons_append, List.cons.injEq] at heq
      obtain ⟨rfl, heq2⟩ := heq
      have ht := ih b1 t2 b2 (fun hm => h1 (List.mem_cons_of_mem _ hm))
        (fun hm => h2 (List.mem_cons_of_mem _ hm)) heq2
      exact ⟨by rw [ht.1], ht.2⟩

/-- The character data of a batch job id is a dash-free decimal index suffix
after the last dash. -/
theorem batchEntryJobId_data (inv : InternalInventory) (m i : Nat) :
    (QueueService.batchEntryJobId inv m i).data =
      (inv.source.str ++ "-" ++ inv.productId ++ "-" ++ natStr m).data ++
        '-' :: decRepr i := by
  simp only [QueueService.batchEntryJobId, String.data_append, natStr]
  simp [List.append_assoc]

/-- Two batch job ids with different indices differ, whatever the sources,
product ids and timestamps involved: the decimal index is the dash-free
suffix after the last dash of the id. -/
theorem batchEntryJobId_index_inj (a b : InternalInventory) (m1 m2 i j : Nat)
    (h : QueueService.batchEntryJobId a m1 i = QueueService.batchEntryJobId b m2 j) :
    i = j := by
  have hd := congrArg String.data h
  rw [batchEntryJobId_data, batchEntryJobId_data] at hd
  have hrev := congrArg List.reverse hd
  simp only [List.reverse_append, List.reverse_cons] at hrev
  rw [List.append_assoc, List.append_assoc] at hrev
  have hsplit := split_at_first_marker ((decRepr i).reverse) _ ((decRepr j).reverse) _
    (fun hm => dash_not_mem_decRepr i (List.mem_reverse.mp hm))
    (fun hm => dash_not_mem_decRepr j (List.mem_reverse.mp hm)) hrev
  exact decRepr_injective (List.reverse_injective hsplit.1)

theorem mem_mapWithIndex {f : Nat → α → β} {y : β} :
    ∀ {s : Nat} {l : List α}, y ∈ QueueService.mapWithIndex f s l →
      ∃ i x, s ≤ i ∧ y = f i x := by
  intro s l
  induction l generalizing s with
  | nil => simp [QueueService.mapWithIndex]
  | cons a t ih =>
    intro h
    rw [QueueService.mapWithIndex] at h
    rcases List.mem_cons.mp h with h | h
    · exact ⟨s, a, le_refl s, h⟩
    · obtain ⟨i, x, hsi, hy⟩ := ih h
      exact ⟨i, x, by omega, hy⟩

/-- Claim C10: once the lock is acquired, `withLock` runs the release on
every exit path of the callback, swallows any error of the release itself,
and its outcome is exactly the callback's outcome. -/
theorem withLock_transparent_release (ε α : Type) (fn : Except ε α)
    (releaseOutcome : Except Unit Unit) :
    (LockService.withLock (.ok ()) fn releaseOutcome).releaseInvoked = true ∧
    (LockService.withLock (.ok ()) fn releaseOutcome).outcome = fn.mapError Sum.inr := by
  cases releaseOutcome <;> cases fn <;>
    simp [LockService.withLock, LockService.releaseLock, Except.mapError]

/-- Claim C3, counterexample: a first-attempt `PermanentStorage` failure (and
likewise a `BadPayload` failure) is rethrown by the worker and the queue
schedules a backoff retry for it — it is not marked failed without retry. -/
theorem processJob_retries_permanent_failure :
    InventoryWorker.processJob c4record (.error .permanentStorage) =
        .rethrown .permanentStorage ∧
      queueDisposition 0 (.rethrown .permanentStorage) = .retryScheduled ∧
      queueDisposition 0 (.rethrown .permanentStorage) ≠ .markedFailed ∧
      InventoryWorker.processJob c4record (.error .badPayload) = .rethrown .badPayload ∧
      queueDisposition 0 (.rethrown .badPayload) = .retryScheduled := by
  refine ⟨rfl, by decide, by decide, rfl, by decide⟩

/-- Claim C3 (amended): the worker rethrows every processing error unchanged
— retriable or not — and the queue then schedules a backoff retry while
attempts remain (fewer than 5 runs), marking the job failed only once the
attempts are exhausted. -/
theorem processJob_rethrows_every_error (inv : InternalInventory) (e : UpdateError)
    (attemptsMade : Nat) :
    InventoryWorker.processJob inv (.error e) = .rethrown e ∧
    queueDisposition attemptsMade (.rethrown e) =
      (if attemptsMade + 1 < defaultJobAttempts then .retryScheduled else .markedFailed) := by
  exact ⟨rfl, rfl⟩

/-- Claim C6: both adapters accept a negative integer quantity — the payload
schemas check only integrality, not sign — and return a canonical record
carrying the negative quantity instead of failing with `BadPayload`. -/
theorem transform_accepts_negative_quantity :
    (MarketplaceAAdapter.transform c6rawA).map (fun r => r.quantity) = .ok (-5) ∧
    (MarketplaceBAdapter.transform c6rawB).map (fun r => r.quantity) = .ok (-7) := by
  exact ⟨by decide, by decide⟩

/-- Claim C4: replaying the upsert of a record with quantity 0 produces a
second audit row whose `old_quantity` is NULL, not 0 — the JS expression
`oldRecord.rows[0]?.quantity || null` collapses the stored 0 to null. The
final inventory row itself is unchanged by the replay (both upserts return
the same row), and both audit rows carry `new_quantity = 0`. -/
theorem upsert_replay_zero_quantity_audit :
    ((InventoryRepository.upsert ⟨[], []⟩ c4record 5).toOption.bind
        (fun p => (InventoryRepository.upsert p.1 c4record 6).toOption)).map
        (fun p => p.1.audit.map (fun a => (a.old_quantity, a.new_quantity))) =
      some [(none, 0), (none, 0)] ∧
    ((InventoryRepository.upsert ⟨[], []⟩ c4record 5).toOption.bind
        (fun p1 => (InventoryRepository.upsert p1.1 c4record 6).toOption.map
          (fun p2 => p2.2 == p1.2))) = some true := by
  exact ⟨by decide, by decide⟩

/-- Claim C9, counterexample: two enqueue operations in the same millisecond
with the same source and product id receive the same generated job id even
though they carry different payloads (quantities 10 and 20). -/
theorem addInventoryUpdate_jobId_collision :
    c9recA ≠ c9recB ∧
    QueueService.addInventoryUpdateJobId c9recA 1700000000000 =
      QueueService.addInventoryUpdateJobId c9recB 1700000000000 := by
  exact ⟨by decide, by decide⟩

/-- Claim C9 (amended): within a single `addBatch` call all generated job ids
are pairwise distinct — each id ends in the dash-free decimal rendering of
its batch index, and those differ. -/
theorem batchJobIds_pairwise_distinct (updates : List InternalInventory) (nowMs : Nat) :
    (QueueService.batchJobIds updates nowMs).Pairwise (· ≠ ·) := by
  unfold QueueService.batchJobIds
  suffices h : ∀ s, (QueueService.mapWithIndex
      (fun i d => QueueService.batchEntryJobId d nowMs i) s updates).Pairwise (· ≠ ·) from
    h 0
  intro s
  induction updates generalizing s with
  | nil => exact List.Pairwise.nil
  | cons a t ih =>
    rw [QueueService.mapWithIndex]
    refine List.Pairwise.cons ?_ (ih (s + 1))
    intro y hy heq
    obtain ⟨i, x, hsi, rfl⟩ := mem_mapWithIndex hy
    have := batchEntryJobId_index_inj a x nowMs nowMs s i heq
    omega

/-- Claim C5, counterexample: an error-free polling cycle that fetched zero
items does not write the poll cursor at all; and when items are fetched the
value written is the Unix-seconds reading at the moment of the write (2000),
not the cycle-start instant (1000). -/
theorem poll_cursor_not_cycle_start :
    (PollingService.poll ⟨false, 0⟩ ⟨some 100, 1000, .ok [], .ok (), 2000⟩).2.cursorWritten =
        none ∧
      (PollingService.poll ⟨false, 0⟩
          ⟨some 100, 1000, .ok [c5item], .ok (), 2000⟩).2.cursorWritten = some 2000 ∧
      (PollingService.poll ⟨false, 0⟩
          ⟨some 100, 1000, .ok [c5item], .ok (), 2000⟩).2.cursorWritten ≠ some 1000 := by
  exact ⟨by decide, by decide, by decide⟩

/-- Claim C1: the webhook handler verifies the HMAC over
`JSON.stringify(req.body)` — a re-serialization of the parsed body — not
over the exact bytes received. A request whose body carries ordinary
whitespace and whose signature is computed over those exact bytes parses to
a body whose re-serialization differs from the wire bytes, and is rejected
with 401 and no enqueue. -/
theorem webhook_rejects_signature_over_exact_bytes :
    Json.parse c1raw = some c1body ∧
    Json.stringify c1body ≠ c1raw ∧
    postWebhookMarketplaceA hmacHex64 c1raw (some (hmacHex64 c1raw)) 0 =
      ⟨401, none⟩ := by
  refine ⟨by decide, by decide, by decide⟩

/-- Claim C2, counterexample: a signature header of the wrong length (here
"ab", against the 64-hex-character expected value) makes
`crypto.timingSafeEqual` throw, the controller's catch block answers 500 —
not the 401 the claim states. No job is enqueued. -/
theorem wrong_length_signature_gives_500 :
    postWebhookMarketplaceA hmacHex64 c2raw (some "ab") 0 = ⟨500, none⟩ ∧
    (postWebhookMarketplaceA hmacHex64 c2raw (some "ab") 0).status ≠ 401 := by
  exact ⟨by decide, by decide⟩

/-- Evaluation of the handler for a present, non-empty signature header. -/
theorem handleMarketplaceA_some (hmacHex : String → String) (body : Json)
    (s : String) (nowMs : Nat) (hne : s ≠ "") :
    WebhookController.handleMarketplaceA hmacHex body (some s) nowMs =
      (match validateSignature hmacHex body.stringify s with
      | .error _ => ⟨500, none⟩
      | .ok false => ⟨401, none⟩
      | .ok true =>
        match MarketplaceAAdapter.transform body with
        | .error _ => ⟨500, none⟩
        | .ok inv => ⟨202, some (QueueService.addInventoryUpdateJobId inv nowMs, inv)⟩) := by
  simp only [WebhookController.handleMarketplaceA]
  rw [if_neg hne]

/-- A signature validates positively only against the expected HMAC value. -/
theorem validateSignature_ok_true {hmacHex : String → String} {payload s : String}
    (h : validateSignature hmacHex payload s = .ok true) : s = hmacHex payload := by
  unfold validateSignature timingSafeEqual at h
  by_cases hl : s.data.length = (hmacHex payload).data.length
  · rw [if_pos hl] at h
    simp only [Except.ok.injEq] at h
    exact eq_of_beq h
  · rw [if_neg hl] at h
    cases h

/-- Claim C2 (amended): a missing or empty signature header is answered 401;
an equal-length signature different from the expected HMAC value is
answered 401; a non-empty signature whose length differs from the expected
value makes `crypto.timingSafeEqual` throw and the controller answers 500;
in all three cases nothing is enqueued, and a job is only ever enqueued
when the signature header equals the expected value. -/
theorem webhook_signature_gate (hmacHex : String → String) (raw : String)
    (body : Json) (sig : Option String) (nowMs : Nat)
    (hparse : Json.parse raw = some body) :
    (sig = none → postWebhookMarketplaceA hmacHex raw sig nowMs = ⟨401, none⟩) ∧
    (sig = some "" → postWebhookMarketplaceA hmacHex raw sig nowMs = ⟨401, none⟩) ∧
    (∀ s, sig = some s → s ≠ "" →
      s.data.length = (hmacHex body.stringify).data.length →
      s ≠ hmacHex body.stringify →
      postWebhookMarketplaceA hmacHex raw sig nowMs = ⟨401, none⟩) ∧
    (∀ s, sig = some s → s ≠ "" →
      s.data.length ≠ (hmacHex body.stringify).data.length →
      postWebhookMarketplaceA hmacHex raw sig nowMs = ⟨500, none⟩) ∧
    ((postWebhookMarketplaceA hmacHex raw sig nowMs).enqueued ≠ none →
      sig = some (hmacHex body.stringify)) := by
  have hpost : postWebhookMarketplaceA hmacHex raw sig nowMs =
      WebhookController.handleMarketplaceA hmacHex body sig nowMs := by
    unfold postWebhookMarketplaceA
    rw [hparse]
  refine ⟨?_, ?_, ?_, ?_, ?_⟩
  · rintro rfl
    rw [hpost]
    rfl
  · rintro rfl
    rw [hpost]
    rfl
  · rintro s rfl hne hlen hneq
    rw [hpost, handleMarketplaceA_some hmacHex body s nowMs hne]
    unfold validateSignature timingSafeEqual
    rw [if_pos hlen]
    have hb : (s == hmacHex body.stringify) = false := beq_eq_false_iff_ne.mpr hneq
    rw [hb]
  · rintro s rfl hne hlen
    rw [hpost, handleMarketplaceA_some hmacHex body s nowMs hne]
    unfold validateSignature timingSafeEqual
    rw [if_neg hlen]
  · intro henq
    rw [hpost] at henq
    cases sig with
    | none => exact absurd rfl henq
    | some s =>
      by_cases hse : s = ""
      · subst hse
        simp [WebhookController.handleMarketplaceA] at henq
      · rw [handleMarketplaceA_some hmacHex body s nowMs hse] at henq
        cases hval : validateSignature hmacHex body.stringify s with
        | error e =>
          rw [hval] at henq
          exact absurd rfl henq
        | ok b =>
          cases b with
          | false =>
            rw [hval] at henq
            exact absurd rfl henq
          | true =>
            rw [validateSignature_ok_true hval]

/-- Witness for the amended C2 at a concrete request: an equal-length but
wrong signature (64 letters f) on a well-formed body is answered 401 with
no enqueue. -/
theorem webhook_signature_gate_witness :
    postWebhookMarketplaceA hmacHex64 c2raw (some ⟨List.replicate 64 'f'⟩) 0 =
      ⟨401, none⟩ := by
  refine (webhook_signature_gate hmacHex64 c2raw c2body
      (some ⟨List.replicate 64 'f'⟩) 0 (by decide)).2.2.1
    ⟨List.replicate 64 'f'⟩ rfl (by decide) (by decide) (by decide)

/-- Claim C5 (amended): an error-free polling cycle writes the poll cursor
only when it fetched at least one item, and the value written is the
Unix-seconds clock reading taken at the moment of the write (after the
batch is enqueued); a cycle that fetched zero items resets the failure
counter and returns early without touching the cursor. -/
theorem poll_cursor_write_behaviour (st : PollState) (env : PollEnv)
    (items : List Json)
    (hrun : st.isRunning = false)
    (hcb : st.consecutiveFailures < 3)
    (hfetch : env.fetchResult = .ok items)
    (henq : env.enqueueResult = .ok ()) :
    (items = [] →
      (PollingService.poll st env).2.cursorWritten = none ∧
      (PollingService.poll st env).1.consecutiveFailures = 0) ∧
    (items ≠ [] →
      (PollingService.poll st env).2.cursorWritten = some env.cursorWriteSec ∧
      (PollingService.poll st env).1.consecutiveFailures = 0) := by
  have hcb2 : ¬ st.consecutiveFailures ≥ 3 := by omega
  constructor
  · rintro rfl
    simp [PollingService.poll, hrun, hcb2, hfetch]
  · intro hne
    cases items with
    | nil => exact absurd rfl hne
    | cons a t =>
      simp [PollingService.poll, hrun, hcb2, hfetch, henq]

/-- Witness for the amended C5: a cycle fetching one item with the clock at
7777 seconds at write time writes the cursor value 7777 and resets the
failure counter. -/
theorem poll_cursor_write_behaviour_witness :
    (PollingService.poll ⟨false, 1⟩
        ⟨none, 5000, .ok [c5item], .ok (), 7777⟩).2.cursorWritten = some 7777 ∧
    (PollingService.poll ⟨false, 1⟩
        ⟨none, 5000, .ok [c5item], .ok (), 7777⟩).1.consecutiveFailures = 0 :=
  (poll_cursor_write_behaviour ⟨false, 1⟩ ⟨none, 5000, .ok [c5item], .ok (), 7777⟩
    [c5item] rfl (by decide) rfl rfl).2 (by simp)

/-- Claim C7: for every Marketplace B payload passing the schema (with a
timestamp in the representable `Date` range), transform returns the
canonical record with `product_id = sku`, `quantity = qty`,
`warehouse_id = location_id`, `metadata = additional_info`,
`source = marketplace_b`, and `updated_at` the RFC3339 UTC rendering of
`last_modified * 1000` epoch milliseconds. -/
theorem marketplaceB_transform_mapping (j : Json) (p : MarketplaceBPayload)
    (hparse : MarketplaceBPayloadSchema.parse j = some p)
    (hrange : (p.last_modified * 1000).natAbs ≤ maxDateMillis) :
    MarketplaceBAdapter.transform j =
      .ok { productId := p.sku
            quantity := p.qty
            source := .marketplace_b
            warehouseId := p.location_id
            updatedAt := epochMillisToISO (p.last_modified * 1000)
            metadata := p.additional_info } := by
  unfold MarketplaceBAdapter.transform
  rw [hparse]
  simp [hrange]

/-- Witness for C7 at the spec scenario-3 item: `last_modified = 1735689600`
renders as `2025-01-01T00:00:00.000Z`. -/
theorem marketplaceB_transform_mapping_witness :
    MarketplaceBAdapter.transform c7item =
      .ok { productId := "SKU1", quantity := 7, source := .marketplace_b,
            warehouseId := some "L", updatedAt := "2025-01-01T00:00:00.000Z",
            metadata := none } := by
  rw [marketplaceB_transform_mapping c7item c7payload (by decide) (by decide)]
  decide

/-- Claim C8: a successful upsert preserves the audit-coverage invariant —
after it, every `(product_id, source)` pair present in the inventory has at
least one audit row with the same pair whose `new_quantity` equals the
row's current quantity. The upserted pair is covered by the audit row the
same transaction appends; every other row keeps its old coverage. -/
theorem upsert_preserves_audit_coverage (db : DbState) (inv : InternalInventory)
    (now : Nat) (db2 : DbState) (ret : InventoryRow)
    (hcov : auditCovered db)
    (h : InventoryRepository.upsert db inv now = .ok (db2, ret)) :
    auditCovered db2 := by
  by_cases hq : inv.quantity < 0
  · simp [InventoryRepository.upsert, hq] at h
  · cases hfind : db.inventory.find? (rowMatches inv.productId inv.source) with
    | none =>
      simp only [InventoryRepository.upsert, hfind, hq, if_false] at h
      obtain ⟨h1, -⟩ := Prod.mk.injEq .. ▸ Except.ok.inj h
      subst h1
      intro r hr
      rcases List.mem_append.mp hr with hr | hr
      · obtain ⟨a, ha, h1, h2, h3⟩ := hcov r hr
        exact ⟨a, List.mem_append_left _ ha, h1, h2, h3⟩
      · rw [List.mem_singleton] at hr
        subst hr
        exact ⟨_, List.mem_append_right _ (List.mem_singleton_self _), rfl, rfl, rfl⟩
    | some r0 =>
      simp only [InventoryRepository.upsert, hfind, hq, if_false] at h
      obtain ⟨h1, -⟩ := Prod.mk.injEq .. ▸ Except.ok.inj h
      subst h1
      intro r hr
      rcases List.mem_map.mp hr with ⟨r1, hr1, rfl⟩
      by_cases hm : rowMatches inv.productId inv.source r1 = true
      · rw [if_pos hm]
        have hpid : r1.product_id = inv.productId := by
          have := (Bool.and_eq_true _ _).mp hm
          exact eq_of_beq this.1
        have hsrc : r1.source = inv.source := by
          have := (Bool.and_eq_true _ _).mp hm
          exact eq_of_beq this.2
        exact ⟨_, List.mem_append_right _ (List.mem_singleton_self _),
          by simp [updateRow, hpid], by simp [updateRow, hsrc], rfl⟩
      · rw [if_neg hm]
        obtain ⟨a, ha, h1, h2, h3⟩ := hcov r1 hr1
        exact ⟨a, List.mem_append_left _ ha, h1, h2, h3⟩

/-- Witness for C8: upserting a record into the empty database yields a
state satisfying the audit-coverage invariant. -/
theorem upsert_preserves_audit_coverage_witness :
    auditCovered
      ⟨[insertRow c8record 0],
       [{ product_id := "PROD-C8", old_quantity := none, new_quantity := 5,
          source := .marketplace_b, changed_at := 0,
          metadata := .cons "warehouse_id" (.str "WH-1") .nil }]⟩ := by
  refine upsert_preserves_audit_coverage ⟨[], []⟩ c8record 0 _ (insertRow c8record 0) ?_ ?_
  · intro r hr
    simp at hr
  · decide

end InvSync
